import Mathlib

/-!
Verification development for the `metro` library (text "metro-line" diagrams).

The embedding follows the two source files:
* `src/events.rs` — the event model and the event-stream renderer
  (`Metro::to_writer` replaying an event log against an active-column list), and
* `src/metro.rs` — the track-lifecycle builder (`Metro` / `Track` /
  `MetroState`) that appends events to a log.

Rust `usize` values are modelled as `Nat`; the renderer's `assert!` /
`unwrap()` / `expect()` panics are modelled by `Option` (`none` = panic).
Output written to the `io::Write` sink is modelled as the `String` that a
successful run writes; a run that panics yields `none` (the partial output
written before a panic is not modelled, and no claim inspects it).
-/

namespace MetroSpec

/-- Rail glyph kinds, from `events.rs` `enum Rail`. -/
inductive Rail
  | Straight
  | Horizontal
  | Station
  | Ground
  | ShiftRight
  | ShiftLeft
  | TopRight
  | BottomRight
  | BottomtLeft
  | SplitRight
  | SplitLeft
deriving DecidableEq

/-- `events.rs` `RenderingSettings { splat, color, rounded }`. -/
structure RenderingSettings where
  splat : Nat
  color : Bool
  rounded : Bool
deriving DecidableEq

/-- `impl Default for RenderingSettings`: `splat = 5`, `color = true`, `rounded = false`. -/
def RenderingSettings.default : RenderingSettings := ⟨5, true, false⟩

/-- Track ids (`events.rs` `TrackId(usize)`). -/
abbrev TrackId := Nat

/-- The pure id→color-index arithmetic from `RenderingSettings::colorize`:
`((id + 1) ^ 93) % 255` (`^` is XOR in Rust). -/
def colorIndex (id : TrackId) : Nat := ((id + 1) ^^^ 93) % 255

/-- Modelled from the spec: the terminal color-escape formatting applied by
`colorize` comes from the external `owo_colors` crate, which the spec scopes
out ("terminal color-escape formatting beyond a pure id→color-index
function").  We model it as a deterministic 256-color foreground escape
wrapper around the glyph, driven by the pure `colorIndex` function; when the
`color` setting is false the glyph is returned unchanged, exactly as in
`RenderingSettings::colorize`. -/
def RenderingSettings.colorize (s : RenderingSettings) (str : String) (i : TrackId) : String :=
  if s.color then "\x1b[38;5;" ++ toString (colorIndex i) ++ "m" ++ str ++ "\x1b[0m" else str

/-- `" ".repeat(n)` / `"─".repeat(n)` building blocks. -/
def spaces (n : Nat) : String := String.mk (List.replicate n ' ')

/-- Repeated `─` glyphs (`"─".repeat(n)`). -/
def dashes (n : Nat) : String := String.mk (List.replicate n '─')

/-- `RenderingSettings::rail_to_str`, glyph per `Rail`, parameterized by `splat`. -/
def RenderingSettings.rail_to_str (s : RenderingSettings) : Rail → String
  | Rail.Straight => "│" ++ spaces s.splat
  | Rail.Horizontal => dashes (s.splat + 1)
  | Rail.Station => "╪" ++ spaces s.splat
  | Rail.Ground => "┷" ++ spaces s.splat
  | Rail.ShiftRight => "└" ++ dashes s.splat ++ "┐" ++ spaces s.splat
  | Rail.ShiftLeft => "┌" ++ dashes s.splat ++ "┘"
  | Rail.TopRight => dashes s.splat ++ "┐" ++ spaces s.splat
  | Rail.BottomRight => dashes s.splat ++ "┘" ++ spaces s.splat
  | Rail.BottomtLeft => "└" ++ dashes s.splat
  | Rail.SplitRight => "├"
  | Rail.SplitLeft => dashes s.splat ++ "┤"

/-- `impl RenderStr for Rail`: colorized glyph for one column of track `i`. -/
def Rail.render (r : Rail) (s : RenderingSettings) (i : TrackId) : String :=
  s.colorize (s.rail_to_str r) i

/-- `events.rs` `enum Event`.  `Cow<str>` text is modelled as `String` and the
borrowed id slice of `StartTracks` as a `List`. -/
inductive Event
  | StartTrack (id : TrackId)
  | StartTracks (ids : List TrackId)
  | StopTrack (id : TrackId)
  | Station (id : TrackId) (text : String)
  | SplitTrack (parent : TrackId) (child : TrackId)
  | JoinTrack (child : TrackId) (target : TrackId)
  | NoEvent
deriving DecidableEq

/-- Split a character list at `'\n'` (helper for Rust `str::lines`). -/
def linesSplit (acc : List Char) : List Char → List (List Char)
  | [] => [acc.reverse]
  | c :: cs => if c = '\n' then acc.reverse :: linesSplit [] cs else linesSplit (c :: acc) cs

/-- Rust `str::lines()`: split on `'\n'`, drop a final empty segment (so a
trailing newline does not yield an extra line and `"".lines()` is empty), and
strip one trailing `'\r'` from each line. -/
def rustLines (s : String) : List String :=
  let parts := linesSplit [] s.data
  let parts := if parts.getLast? = some [] then parts.dropLast else parts
  parts.map (fun l => String.mk (if l.getLast? = some '\r' then l.dropLast else l))

/-- The renderer's pre-pass (`Metro::to_writer`, events.rs lines 278-292): a
fold over the log computing the running track count (starting at 1 for the
seeded default track) and its maximum.  Counting only: `+1` per
`StartTrack`/`SplitTrack`, `+k` per `StartTracks` of `k` ids, `-1` per
`StopTrack`/`JoinTrack`.  (In Rust the count is a `usize`; on logs the replay
loop accepts it never underflows, so truncated `Nat` subtraction agrees.) -/
def widestTrack (events : List Event) : Nat :=
  (events.foldl (fun (p : Nat × Nat) e =>
    let current :=
      match e with
      | Event.StartTrack _ => p.1 + 1
      | Event.StartTracks ids => p.1 + ids.length
      | Event.StopTrack _ => p.1 - 1
      | Event.SplitTrack _ _ => p.1 + 1
      | Event.JoinTrack _ _ => p.1 - 1
      | _ => p.1
    (current, max p.2 current)) (1, 1)).2

/-- The `StartTracks` replay loop: per id in order, `assert!` it is absent
from the active list (panic = `none`), then push it rightmost. -/
def startTracksStep (tracks : List TrackId) : List TrackId → Option (List TrackId)
  | [] => some tracks
  | id :: ids => if id ∈ tracks then none else startTracksStep (tracks ++ [id]) ids

/-- The text fragment appended after the rails of one station line:
`write!(w, "{line:>pad$}", pad = line.len() + widest_track - tracks.len() + 3)`.
`line.len()` is the UTF-8 byte length; the formatter right-aligns, padding
with spaces up to a width of `pad` counted in characters (no padding when the
line is already at least `pad` characters, which truncated `Nat` subtraction
models). -/
def stationText (widest : Nat) (ntracks : Nat) (line : String) : String :=
  spaces (line.utf8ByteSize + widest - ntracks + 3 - line.length) ++ line

/-- The rows produced by replaying `Station(target, text)`: one row per line
of the text (station glyph in `target`'s column on the first line only),
each followed by the padded text, then one trailing all-straight spacer row. -/
def stationRows (s : RenderingSettings) (widest : Nat) (tracks : List TrackId)
    (target : TrackId) (text : String) : String :=
  String.join ((rustLines text).enum.map (fun p =>
    String.join (tracks.map (fun t =>
      (if p.1 = 0 ∧ t = target then Rail.Station else Rail.Straight).render s t))
    ++ stationText widest tracks.length p.2 ++ "\n"))
  ++ String.join (tracks.map (fun t => Rail.Straight.render s t)) ++ "\n"

/-- The diagonal "opening" staircase drawn by `SplitTrack` when more than one
rail is active: rows `l_i ∈ 0..(len - parent_position)`, in row `l_i` the
column `i` with `len - i = l_i` draws a shift-right glyph. -/
def splitStairs (s : RenderingSettings) (tracks : List TrackId) (pp : Nat) : String :=
  if tracks.length > 1 then
    String.join ((List.range (tracks.length - pp)).map (fun li =>
      String.join (tracks.enum.map (fun q =>
        (if tracks.length - q.1 = li then Rail.ShiftRight else Rail.Straight).render s q.2))
      ++ "\n"))
  else ""

/-- The final `SplitTrack` row, drawn over the active list after inserting the
child: top-right corner at the child, branch glyph at the parent (the child
test comes first, as in the source), straight elsewhere. -/
def splitFinalRow (s : RenderingSettings) (tracks2 : List TrackId)
    (parent child : TrackId) : String :=
  String.join (tracks2.map (fun t =>
    (if t = child then Rail.TopRight
     else if t = parent then Rail.SplitRight
     else Rail.Straight).render s t)) ++ "\n"

/-- The single `JoinTrack` row: branch glyph at the target position, corner at
the child position (colored with the child id), horizontal connectors strictly
between them (also colored with the child id), straight elsewhere. -/
def joinRow (s : RenderingSettings) (tracks : List TrackId) (child : TrackId)
    (tp cp : Nat) : String :=
  String.join (tracks.enum.map (fun q =>
    if q.1 = tp then
      (if cp > tp then Rail.SplitRight else Rail.SplitLeft).render s q.2
    else if q.1 = cp then
      (if cp > tp then Rail.BottomRight else Rail.BottomtLeft).render s child
    else if min tp cp < q.1 ∧ q.1 < max tp cp then
      Rail.Horizontal.render s child
    else
      Rail.Straight.render s q.2)) ++ "\n"

/-- The "closing" staircase after a join: for each column index from `start`
to the end of the retained list, one row whose column `j = i` (when `j ≠ 0`)
draws a shift-left glyph. -/
def joinClosing (s : RenderingSettings) (tracks2 : List TrackId) (start : Nat) : String :=
  String.join ((List.range' start (tracks2.length - start)).map (fun i =>
    String.join (tracks2.enum.map (fun q =>
      (if q.1 = i ∧ q.1 ≠ 0 then Rail.ShiftLeft else Rail.Straight).render s q.2))
    ++ "\n"))

/-- One iteration of the replay loop in `Metro::to_writer` (events.rs lines
294-448): given the rendering settings, the pre-pass `widest_track` value and
the current active list, replay one event, returning the text written for it
and the updated active list, or `none` where the Rust code panics
(`assert!` on `StartTrack`/`StartTracks`/`StopTrack`, `expect`/`unwrap` on
`SplitTrack`/`JoinTrack` position lookups). -/
def replayStep (s : RenderingSettings) (widest : Nat) (tracks : List TrackId) :
    Event → Option (String × List TrackId)
  | Event.StartTrack id =>
      if id ∈ tracks then none else some ("", tracks ++ [id])
  | Event.StartTracks ids =>
      (startTracksStep tracks ids).map (fun tr => ("", tr))
  | Event.StopTrack id =>
      if id ∈ tracks then
        -- source: both branches of the `if track_id == stopped` draw
        -- `Rail::Ground`; `Rail::Straight` is commented out in the else arm.
        some (String.join (tracks.map (fun t =>
          (if t = id then Rail.Ground else Rail.Ground).render s t)) ++ "\n",
          tracks.filter (fun t => t != id))
      else none
  | Event.Station target text =>
      some (stationRows s widest tracks target text, tracks)
  | Event.SplitTrack parent child =>
      match tracks.findIdx? (fun t => t == parent) with
      | none => none
      | some pp =>
          let tracks2 := tracks.insertIdx (pp + 1) child
          some (splitStairs s tracks pp ++ splitFinalRow s tracks2 parent child, tracks2)
  | Event.JoinTrack child target =>
      match tracks.findIdx? (fun t => t == target), tracks.findIdx? (fun t => t == child) with
      | some tp, some cp =>
          let tracks2 := tracks.filter (fun t => t != child)
          let start := if cp > tp then max tp cp else min tp cp + 1
          some (joinRow s tracks child tp cp ++ joinClosing s tracks2 start, tracks2)
      | _, _ => none
  | Event.NoEvent =>
      some (String.join (tracks.map (fun t => Rail.Straight.render s t)) ++ "\n", tracks)

/-- The replay loop over a whole log, threading the active list and
concatenating the written text. -/
def replayList (s : RenderingSettings) (widest : Nat) :
    List Event → List TrackId → Option (String × List TrackId)
  | [], tracks => some ("", tracks)
  | e :: es, tracks =>
      match replayStep s widest tracks e with
      | none => none
      | some (out, tr2) =>
          match replayList s widest es tr2 with
          | none => none
          | some (rest, trF) => some (out ++ rest, trF)

namespace Events

/-- `events.rs` `struct Metro { events, rdr }` (the renderer-side container). -/
structure Metro where
  events : List Event
  rdr : RenderingSettings
deriving DecidableEq

/-- `events.rs` `Metro::to_writer`: seed the active list with track id 0,
compute `widest_track` by the pre-pass, then replay every event in order.
`none` models a panic; `some out` is the full text written. -/
def Metro.to_writer (m : Metro) : Option String :=
  (replayList m.rdr (widestTrack m.events) m.events [0]).map Prod.fst

end Events

/-- The active list after replaying a log from the seeded `[0]`, with
`widest_track` computed as `to_writer` does (`none` = replay panics). -/
def replayActive (s : RenderingSettings) (events : List Event) : Option (List TrackId) :=
  (replayList s (widestTrack events) events [0]).map Prod.snd

/-- The sizes of the active list at every replay instant (before each event,
plus the final instant), from the seeded `[0]`; `none` = replay panics. -/
def replaySizesFrom (s : RenderingSettings) (widest : Nat) :
    List Event → List TrackId → Option (List Nat)
  | [], tracks => some [tracks.length]
  | e :: es, tracks =>
      match replayStep s widest tracks e with
      | none => none
      | some (_, tr2) =>
          match replaySizesFrom s widest es tr2 with
          | none => none
          | some sizes => some (tracks.length :: sizes)

/-- The maximum length the active list reaches over the entire replay of a
log (counting the initial seeded track), as the spec describes
`widest_track`; `none` = replay panics. -/
def maxActive (s : RenderingSettings) (events : List Event) : Option Nat :=
  (replaySizesFrom s (widestTrack events) events [0]).map (fun l => l.foldl max 0)

/-! ## The builder (`src/metro.rs`)

`MetroState { tracks, events, next_id }` is the registry.  A `Track` handle
is a shared reference to the registry plus a `TrackId`; several handles may
alias one id.  In the embedding a handle is represented by its id, and each
builder operation is a function on the registry state (the single-threaded
call discipline serializes all mutations). -/

/-- `std::usize::MAX` on a 64-bit target, used by `Metro::add_station` as the
reserved detached-station id. -/
def USIZE_MAX : Nat := 2 ^ 64 - 1

/-- `metro.rs` `struct MetroState { tracks, events, next_id }`.  `tracks`
holds the ids of the registry's live `Track` entries in insertion order. -/
structure MetroState where
  tracks : List TrackId
  events : List Event
  next_id : Nat
deriving DecidableEq

/-- `MetroState::new()`: empty registry, empty log, counter at 0. -/
def MetroState.new : MetroState := ⟨[], [], 0⟩

/-- `MetroState::next_id`: return the counter and increment it (the Rust
`usize` increment panics on overflow; `Nat` does not overflow). -/
def MetroState.nextId (st : MetroState) : Nat × MetroState :=
  (st.next_id, ⟨st.tracks, st.events, st.next_id + 1⟩)

/-- `MetroState::new_track` (metro.rs lines 621-637): if a live track with
this id exists, return an aliasing handle and change nothing; otherwise
register the id and emit `StartTrack(id)`.  Returns the handle's id. -/
def MetroState.new_track_with_id (st : MetroState) (id : TrackId) : TrackId × MetroState :=
  if id ∈ st.tracks then (id, st)
  else (id, ⟨st.tracks ++ [id], st.events ++ [Event.StartTrack id], st.next_id⟩)

/-- `Metro::new_track`: draw a fresh id from the counter, then behave as
`new_track_with_id` on it. -/
def MetroState.new_track (st : MetroState) : TrackId × MetroState :=
  let r := st.nextId
  r.2.new_track_with_id r.1

/-- `MetroState::get_track`: an aliasing handle if the id is live, else
`none`; never an event. -/
def MetroState.get_track (st : MetroState) (id : TrackId) : Option TrackId :=
  if id ∈ st.tracks then some id else none

/-- `MetroState::split_track` (metro.rs lines 646-662): if a live track with
`newId` exists, return it as an alias and change nothing; otherwise register
`newId` and emit `SplitTrack(fromId, newId)`. -/
def MetroState.split_track (st : MetroState) (fromId newId : TrackId) : TrackId × MetroState :=
  if newId ∈ st.tracks then (newId, st)
  else (newId, ⟨st.tracks ++ [newId], st.events ++ [Event.SplitTrack fromId newId], st.next_id⟩)

/-- `Track::split`: draw a fresh id from the counter, then `split_track`. -/
def MetroState.split (st : MetroState) (fromId : TrackId) : TrackId × MetroState :=
  let r := st.nextId
  r.2.split_track fromId r.1

/-- Remove the element at index `i` (`Vec::remove`). -/
def removeAt (l : List TrackId) (i : Nat) : List TrackId :=
  l.take i ++ l.drop (i + 1)

/-- `MetroState::join_track` (metro.rs lines 664-684): append
`JoinTrack(fromId, toId)` unconditionally (the comment claims the renderer
resolves the edge cases), then remove `fromId` from the live tracks if
present. -/
def MetroState.join_track (st : MetroState) (fromId toId : TrackId) : MetroState :=
  let ev2 := st.events ++ [Event.JoinTrack fromId toId]
  match st.tracks.findIdx? (fun t => t == fromId) with
  | some i => ⟨removeAt st.tracks i, ev2, st.next_id⟩
  | none => ⟨st.tracks, ev2, st.next_id⟩

/-- `Drop for Track` (metro.rs lines 547-583), also reached by
`Track::stop()`: if the id is still live (`is_dangling` is false), emit
`StopTrack(id)` and remove the registry entry at the id's position; a release
of a dangling alias is a no-op.  (The `position().unwrap()` cannot fail: the
presence check just succeeded; the unreachable arm returns the state
unchanged.) -/
def MetroState.release (st : MetroState) (id : TrackId) : MetroState :=
  if st.tracks.all (fun t => t != id) then st
  else
    match st.tracks.findIdx? (fun t => t == id) with
    | some i => ⟨removeAt st.tracks i, st.events ++ [Event.StopTrack id], st.next_id⟩
    | none => st

/-- Iterated release: dropping `n` aliases of the same id one after the
other. -/
def MetroState.releaseN (st : MetroState) (id : TrackId) : Nat → MetroState
  | 0 => st
  | n + 1 => (st.release id).releaseN id n

/-- `Metro::add_station` (detached station, reserved id `usize::MAX`). -/
def MetroState.add_station (st : MetroState) (text : String) : MetroState :=
  ⟨st.tracks, st.events ++ [Event.Station USIZE_MAX text], st.next_id⟩

/-- `Track::add_station`: appends `Station(id, text)` through the handle's id
(no liveness check in the source). -/
def MetroState.track_add_station (st : MetroState) (id : TrackId) (text : String) : MetroState :=
  ⟨st.tracks, st.events ++ [Event.Station id text], st.next_id⟩

/-- `Metro::to_events`: a cloned snapshot of the accumulated log. -/
def MetroState.to_events (st : MetroState) : List Event := st.events

/-- Modelled from the spec: the free render functions (`to_writer` /
`to_vec` / `to_string` of the events module) are imported by metro.rs
(`use crate::events::{to_string, to_vec, to_writer, Event}`) but their
definitions are not under `src/`; metro.rs calls them with only the event
log (`to_writer(writer, &state.events)`), so they render with the default
`RenderingSettings` of §6 of the spec. -/
def renderEventsDefault (events : List Event) : Option String :=
  (Events.Metro.mk events RenderingSettings.default).to_writer

/-- `Metro::to_string` on the builder (metro.rs lines 270-273): render the
accumulated log via the free render function. -/
def MetroState.to_string (st : MetroState) : Option String :=
  renderEventsDefault st.events

/-- One builder API call, addressed by track id (a handle is its id; several
aliases of one id are several calls mentioning the same id). -/
inductive BCall
  | newTrack
  | newTrackWithId (id : TrackId)
  | getTrack (id : TrackId)
  | addDetachedStation (text : String)
  | addStation (id : TrackId) (text : String)
  | split (id : TrackId)
  | splitWithId (parentId newId : TrackId)
  | join (childId targetId : TrackId)
  | release (id : TrackId)

/-- Execute one builder call against the registry (returned handles are
identified with their ids and need not be threaded separately). -/
def stepCall (st : MetroState) : BCall → MetroState
  | BCall.newTrack => st.new_track.2
  | BCall.newTrackWithId id => (st.new_track_with_id id).2
  | BCall.getTrack _ => st
  | BCall.addDetachedStation text => st.add_station text
  | BCall.addStation id text => st.track_add_station id text
  | BCall.split id => (st.split id).2
  | BCall.splitWithId pid nid => (st.split_track pid nid).2
  | BCall.join cid tid => st.join_track cid tid
  | BCall.release id => st.release id

/-- Run a sequence of builder calls from a fresh `Metro::new()`. -/
def runCalls (calls : List BCall) : MetroState :=
  calls.foldl stepCall MetroState.new

/-- Plain settings used for concrete evaluations: `splat = 0`, `color =
false` (so glyphs are written bare, one character per column). -/
def S0 : RenderingSettings := ⟨0, false, false⟩

/-! ## Helper lemmas -/

/-- A character list never has more characters than UTF-8 bytes. -/
theorem go_length_le (cs : List Char) : cs.length ≤ String.utf8ByteSize.go cs := by
  induction cs with
  | nil => simp [String.utf8ByteSize.go]
  | cons c cs ih =>
      have h := Char.utf8Size_pos c
      simp only [String.utf8ByteSize.go, List.length_cons]
      omega

/-- A string never has more characters than UTF-8 bytes. -/
theorem length_le_utf8ByteSize (s : String) : s.length ≤ s.utf8ByteSize := by
  cases s with
  | mk d => simpa [String.utf8ByteSize, String.length] using go_length_le d

/-- Prepending the empty string is the identity. -/
theorem empty_append_string (x : String) : "" ++ x = x := by
  cases x with
  | mk d => rfl

/-- `Vec::insert` at a valid index splices the element between the prefix and
the suffix. -/
theorem insertIdx_eq_take_cons_drop (a : TrackId) :
    ∀ (n : Nat) (l : List TrackId), n ≤ l.length →
      l.insertIdx n a = l.take n ++ a :: l.drop n
  | 0, l, _ => by simp
  | n + 1, [], h => by simp at h
  | n + 1, b :: t, h => by
      simp only [List.insertIdx_succ_cons, List.take_succ_cons, List.drop_succ_cons,
        List.cons_append]
      rw [insertIdx_eq_take_cons_drop a n t (by simpa using h)]

/-- A successful `position` lookup is within bounds. -/
theorem findIdx?_some_lt (P : TrackId → Bool) :
    ∀ (l : List TrackId) (i j : Nat), List.findIdx? P l i = some j → j < i + l.length
  | [], i, j, h => by simp [List.findIdx?_nil] at h
  | b :: t, i, j, h => by
      rw [List.findIdx?_cons] at h
      by_cases hb : P b = true
      · rw [if_pos hb] at h
        obtain rfl : i = j := by simpa using h
        simp
      · rw [if_neg hb, List.findIdx?_succ] at h
        match hopt : List.findIdx? P t i with
        | none => rw [hopt] at h; simp at h
        | some k =>
            rw [hopt] at h
            have hk := findIdx?_some_lt P t i k hopt
            have hj : k + 1 = j := by simpa using h
            simp only [List.length_cons]
            omega

/-- `position(|t| t == a)` succeeds on a list containing `a`. -/
theorem findIdx?_beq_isSome_of_mem (a : TrackId) :
    ∀ (l : List TrackId), a ∈ l → ∃ i, List.findIdx? (fun t => t == a) l = some i
  | [], h => absurd h (List.not_mem_nil a)
  | b :: t, h => by
      rw [List.findIdx?_cons]
      by_cases hb : (b == a) = true
      · exact ⟨0, by rw [if_pos hb]⟩
      · have ht : a ∈ t := by
          rcases List.mem_cons.mp h with h1 | h1
          · subst h1
            simp at hb
          · exact h1
        obtain ⟨j, hj⟩ := findIdx?_beq_isSome_of_mem a t ht
        refine ⟨j + 1, ?_⟩
        rw [if_neg hb, List.findIdx?_succ, hj]
        rfl

/-- Removing the element at the position found by `position(|t| t == a)` is
removal of the first occurrence of `a` (`List.erase`). -/
theorem removeAt_findIdx?_eq_erase (a : TrackId) :
    ∀ (l : List TrackId) (i : Nat),
      List.findIdx? (fun t => t == a) l = some i → removeAt l i = l.erase a
  | [], i, h => by simp [List.findIdx?_nil] at h
  | b :: t, i, h => by
      rw [List.findIdx?_cons] at h
      by_cases hb : (b == a) = true
      · rw [if_pos hb] at h
        obtain rfl : (0 : Nat) = i := by simpa using h
        have hba : b = a := by simpa using hb
        subst hba
        simp [removeAt, List.erase_cons_head]
      · rw [if_neg hb, List.findIdx?_succ] at h
        match hopt : List.findIdx? (fun t => t == a) t with
        | none => rw [hopt] at h; simp at h
        | some j =>
            rw [hopt] at h
            obtain rfl : j + 1 = i := by simpa using h
            have ih := removeAt_findIdx?_eq_erase a t j hopt
            rw [List.erase_cons_tail hb]
            simp only [removeAt, List.take_succ_cons, List.drop_succ_cons, List.cons_append]
            rw [← ih]
            rfl

/-- Releasing a handle whose id is still live emits `StopTrack(id)` and
erases the id's registry entry. -/
theorem release_of_mem (st : MetroState) (id : TrackId) (hmem : id ∈ st.tracks) :
    st.release id = ⟨st.tracks.erase id, st.events ++ [Event.StopTrack id], st.next_id⟩ := by
  obtain ⟨i, hi⟩ := findIdx?_beq_isSome_of_mem id st.tracks hmem
  have hall : ¬(st.tracks.all (fun t => t != id) = true) := by
    intro hall
    have := List.all_eq_true.mp hall id hmem
    simp at this
  unfold MetroState.release
  rw [if_neg hall, hi]
  show (⟨removeAt st.tracks i, st.events ++ [Event.StopTrack id], st.next_id⟩ : MetroState) = _
  rw [removeAt_findIdx?_eq_erase id st.tracks i hi]

/-- Releasing a dangling handle is a no-op. -/
theorem release_of_not_mem (st : MetroState) (id : TrackId) (h : id ∉ st.tracks) :
    st.release id = st := by
  have hall : st.tracks.all (fun t => t != id) = true := by
    rw [List.all_eq_true]
    intro x hx
    simp only [bne_iff_ne, ne_eq]
    intro he
    exact h (he ▸ hx)
  unfold MetroState.release
  rw [if_pos hall]

/-- Any number of releases of a dangling id change nothing. -/
theorem releaseN_of_not_mem (st : MetroState) (id : TrackId) (h : id ∉ st.tracks) :
    ∀ n, st.releaseN id n = st
  | 0 => rfl
  | n + 1 => by
      show (st.release id).releaseN id n = st
      rw [release_of_not_mem st id h]
      exact releaseN_of_not_mem st id h n

/-! ## Claims -/

/-- C1: the claim states that every event log producible through the builder
API replays in the renderer without a fatal contract violation.  The code
violates this: the renderer seeds its active list with the default track id
0 and `assert!`s that a `StartTrack` id is absent, while a fresh builder's
registry starts empty with its counter at 0 — so the very first
`new_track()` emits `StartTrack(0)`, whose replay panics (modelled as
`none`).  This theorem evaluates the code at that failing input. -/
theorem C1_first_new_track_log_fails_replay :
    (runCalls [BCall.newTrack]).events = [Event.StartTrack 0] ∧
    Events.Metro.to_writer (Events.Metro.mk [Event.StartTrack 0] RenderingSettings.default)
      = none := by
  exact ⟨by decide, by decide⟩

/-- C2: the claim states that `StopTrack(id)` renders the ground glyph only
in `id`'s column and the straight-rail glyph in every other column.  The
code renders the ground glyph in every column (`Rail::Straight` is commented
out in the else arm of events.rs lines 312-317); the removal of `id` (order
preserved) does hold.  At `splat = 0`, `color = false`, active `[0, 1]`,
replaying `StopTrack(1)` writes `"┷┷\n"`, not the claimed `"│┷\n"`. -/
theorem C2_stop_track_renders_ground_everywhere :
    replayStep S0 2 [0, 1] (Event.StopTrack 1) = some ("┷┷\n", [0]) ∧
    ("┷┷\n" : String) ≠ "│┷\n" := by
  exact ⟨by decide, by decide⟩

/-- C3: the claim states that a degenerate join (missing target, or child
equal to target) is re-interpreted by the builder as `StopTrack` and never
appended as `JoinTrack`.  The code appends `JoinTrack` unconditionally
(metro.rs line 672; its comment defers the edge cases to the renderer, but
the renderer `unwrap()`s the target position, events.rs line 386).  The call
sequence below is realizable in Rust (hold an alias from `get_track(2)`,
stop track 2, then join track 1 onto the dangling alias; and join a track
onto an alias of itself): the log receives a `JoinTrack` with a missing
target — whose replay then panics — and a `JoinTrack` with child = target. -/
theorem C3_degenerate_join_reaches_renderer :
    (runCalls [BCall.newTrackWithId 1, BCall.newTrackWithId 2, BCall.getTrack 2,
        BCall.release 2, BCall.join 1 2]).events
      = [Event.StartTrack 1, Event.StartTrack 2, Event.StopTrack 2, Event.JoinTrack 1 2] ∧
    Events.Metro.to_writer (Events.Metro.mk
      [Event.StartTrack 1, Event.StartTrack 2, Event.StopTrack 2, Event.JoinTrack 1 2] S0)
      = none ∧
    (runCalls [BCall.newTrackWithId 1, BCall.getTrack 1, BCall.join 1 1]).events
      = [Event.StartTrack 1, Event.JoinTrack 1 1] := by
  exact ⟨by decide, by decide, by decide⟩

/-- C4 counterexample: the claim predicts `widest_track - current + 3`
spaces between the rails and the station text with `widest_track` the
maximum length the active list reaches.  Two concrete refutations:
(1) the accepted log `[SplitTrack(0,0), StopTrack(0), StartTrack(1),
StartTrack(2), Station(1,"x")]` has maximum active length 2 and active
length 2 at the station, so the claim predicts 3 spaces, but the renderer
pads by its counter-based pre-pass value (3) and writes 4 spaces;
(2) for `Station(0,"é")` (widest 1, active length 1) the claim predicts 3
spaces, but `line.len()` is the UTF-8 byte length (2) while the formatter
width counts characters (1), so 4 spaces are written. -/
theorem C4_counterexample :
    Events.Metro.to_writer (Events.Metro.mk
        [Event.SplitTrack 0 0, Event.StopTrack 0, Event.StartTrack 1, Event.StartTrack 2,
         Event.Station 1 "x"] S0)
      = some "┐┐\n┷┷\n╪│    x\n││\n" ∧
    maxActive S0 [Event.SplitTrack 0 0, Event.StopTrack 0, Event.StartTrack 1,
        Event.StartTrack 2, Event.Station 1 "x"] = some 2 ∧
    ("╪│    x\n" : String) ≠ "╪│   x\n" ∧
    Events.Metro.to_writer (Events.Metro.mk [Event.Station 0 "é"] S0) = some "╪    é\n│\n" ∧
    maxActive S0 [Event.Station 0 "é"] = some 1 ∧
    ("╪    é\n" : String) ≠ "╪   é\n" := by
  refine ⟨by decide, by decide, by decide, by decide, by decide, by decide⟩

/-- C4 (amended): at any replay instant whose active list `tracks` satisfies
`tracks.length ≤ widest_track`, each text line of a replayed `Station` event
is right-padded with exactly `(line byte length - line character count) +
(widest_track - tracks.length) + 3` space cells between the rails and the
text, where `widest_track` is the renderer's counter-based pre-pass maximum
(`widestTrack`), not the active-list maximum; so the horizontal position of
station text depends on the log's pre-pass counter maximum, not on the rail
count at the moment the station is rendered. -/
theorem C4_amended_station_padding (s : RenderingSettings) (evs : List Event)
    (tracks : List TrackId) (id : TrackId) (text : String)
    (h : tracks.length ≤ widestTrack evs) :
    replayStep s (widestTrack evs) tracks (Event.Station id text) =
      some (String.join ((rustLines text).enum.map (fun p =>
          String.join (tracks.map (fun t =>
            (if p.1 = 0 ∧ t = id then Rail.Station else Rail.Straight).render s t))
          ++ (spaces ((p.2.utf8ByteSize - p.2.length) + (widestTrack evs - tracks.length) + 3)
              ++ p.2) ++ "\n"))
        ++ String.join (tracks.map (fun t => Rail.Straight.render s t)) ++ "\n", tracks) := by
  have hmap : ((rustLines text).enum.map (fun p =>
        String.join (tracks.map (fun t =>
          (if p.1 = 0 ∧ t = id then Rail.Station else Rail.Straight).render s t))
        ++ stationText (widestTrack evs) tracks.length p.2 ++ "\n"))
      = ((rustLines text).enum.map (fun p =>
        String.join (tracks.map (fun t =>
          (if p.1 = 0 ∧ t = id then Rail.Station else Rail.Straight).render s t))
        ++ (spaces ((p.2.utf8ByteSize - p.2.length) + (widestTrack evs - tracks.length) + 3)
            ++ p.2) ++ "\n")) := by
    apply List.map_congr_left
    intro p _
    have hb := length_le_utf8ByteSize p.2
    have harith : p.2.utf8ByteSize + widestTrack evs - tracks.length + 3 - p.2.length
        = (p.2.utf8ByteSize - p.2.length) + (widestTrack evs - tracks.length) + 3 := by
      omega
    unfold stationText
    rw [harith]
  show some (stationRows s (widestTrack evs) tracks id text, tracks) = _
  unfold stationRows
  rw [hmap]

/-- Witness for C4 (amended): concrete instance, hypotheses discharged. -/
theorem C4_amended_station_padding_witness :
    ([0] : List TrackId).length ≤ widestTrack [] ∧
    replayStep S0 (widestTrack []) [0] (Event.Station 0 "a") = some ("╪   a\n│\n", [0]) := by
  constructor
  · decide
  · have h := C4_amended_station_padding S0 [] [0] 0 "a" (by decide)
    rw [h]
    decide

/-- C5: replaying `Station(id, text)` emits one row per line of the text;
only the first row marks `id`'s column with the station glyph (all other
columns straight, subsequent rows entirely straight), each row carries its
padded text; one trailing all-straight spacer row follows; and the active
list is unchanged.  If `id` is absent from the active list, the rows are
still emitted with every column straight (second conjunct). -/
theorem C5_station_rows (s : RenderingSettings) (widest : Nat) (tracks : List TrackId)
    (id : TrackId) (text : String) :
    replayStep s widest tracks (Event.Station id text) =
      some (String.join ((rustLines text).enum.map (fun p =>
          String.join (tracks.map (fun t =>
            (if p.1 = 0 ∧ t = id then Rail.Station else Rail.Straight).render s t))
          ++ stationText widest tracks.length p.2 ++ "\n"))
        ++ String.join (tracks.map (fun t => Rail.Straight.render s t)) ++ "\n", tracks) ∧
    (id ∉ tracks →
      ((rustLines text).enum.map (fun p =>
          String.join (tracks.map (fun t =>
            (if p.1 = 0 ∧ t = id then Rail.Station else Rail.Straight).render s t))
          ++ stationText widest tracks.length p.2 ++ "\n"))
        = ((rustLines text).enum.map (fun p =>
          String.join (tracks.map (fun t => Rail.Straight.render s t))
          ++ stationText widest tracks.length p.2 ++ "\n"))) := by
  constructor
  · rfl
  · intro hid
    apply List.map_congr_left
    intro p _
    have hrails : (tracks.map (fun t =>
          (if p.1 = 0 ∧ t = id then Rail.Station else Rail.Straight).render s t))
        = (tracks.map (fun t => Rail.Straight.render s t)) := by
      apply List.map_congr_left
      intro t ht
      have hne : ¬(p.1 = 0 ∧ t = id) := by
        rintro ⟨_, rfl⟩
        exact hid ht
      rw [if_neg hne]
    rw [hrails]

/-- Witness for C5: concrete instance; the absent-id conjunct is discharged
at `id = 5`, `tracks = [0]`. -/
theorem C5_station_rows_witness :
    replayStep S0 1 [0] (Event.Station 5 "hi") = some ("│   hi\n│\n", [0]) ∧
    ((rustLines "hi").enum.map (fun p =>
        String.join (([0] : List TrackId).map (fun t =>
          (if p.1 = 0 ∧ t = 5 then Rail.Station else Rail.Straight).render S0 t))
        ++ stationText 1 ([0] : List TrackId).length p.2 ++ "\n"))
      = ((rustLines "hi").enum.map (fun p =>
        String.join (([0] : List TrackId).map (fun t => Rail.Straight.render S0 t))
        ++ stationText 1 ([0] : List TrackId).length p.2 ++ "\n")) := by
  constructor
  · have h := (C5_station_rows S0 1 [0] 5 "hi").1
    rw [h]
    decide
  · exact (C5_station_rows S0 1 [0] 5 "hi").2 (by decide)

/-- C6: several aliases of one live track id: the first release (explicit
`stop()` or drop) emits exactly one `StopTrack(id)` and removes the id's
registry entry; each further release of an alias is a no-op, so `n + 1`
releases append exactly the single `StopTrack(id)` event. -/
theorem C6_aliased_release_emits_one_stop (st : MetroState) (id : TrackId) (n : Nat)
    (hmem : id ∈ st.tracks) (hnd : st.tracks.Nodup) :
    st.releaseN id (n + 1)
      = ⟨st.tracks.erase id, st.events ++ [Event.StopTrack id], st.next_id⟩ := by
  have h1 := release_of_mem st id hmem
  have h2 : id ∉ st.tracks.erase id := by
    intro hm
    exact ((List.Nodup.mem_erase_iff hnd).mp hm).1 rfl
  show (st.release id).releaseN id n = _
  rw [h1]
  exact releaseN_of_not_mem _ id h2 n

/-- Witness for C6: two aliases of live track 3 are both released; exactly
one `StopTrack(3)` is appended. -/
theorem C6_aliased_release_emits_one_stop_witness :
    (3 : TrackId) ∈ (MetroState.mk [3] [Event.StartTrack 3] 4).tracks ∧
    (MetroState.mk [3] [Event.StartTrack 3] 4).tracks.Nodup ∧
    (MetroState.mk [3] [Event.StartTrack 3] 4).releaseN 3 2
      = MetroState.mk [] [Event.StartTrack 3, Event.StopTrack 3] 4 := by
  refine ⟨by decide, by decide, ?_⟩
  have h := C6_aliased_release_emits_one_stop (MetroState.mk [3] [Event.StartTrack 3] 4) 3 1
    (by decide) (by decide)
  rw [h]
  decide

/-- C7: replaying `SplitTrack(parent, child)` with parent at position `p`
inserts the child immediately after the parent, leaving the prefix and the
suffix (hence the relative order of all other ids) unchanged; concretely,
from the seeded `[0]`, `SplitTrack(0,1)` yields active `[0,1]` and a
subsequent `JoinTrack(1,0)` restores `[0]`. -/
theorem C7_split_inserts_child_after_parent (s : RenderingSettings) (widest : Nat)
    (tracks : List TrackId) (parent child : TrackId) (p : Nat)
    (hp : tracks.findIdx? (fun t => t == parent) = some p) :
    (replayStep s widest tracks (Event.SplitTrack parent child)).map Prod.snd
      = some (tracks.take (p + 1) ++ child :: tracks.drop (p + 1)) ∧
    replayActive S0 [Event.SplitTrack 0 1] = some [0, 1] ∧
    replayActive S0 [Event.SplitTrack 0 1, Event.JoinTrack 1 0] = some [0] := by
  refine ⟨?_, by decide, by decide⟩
  have hlt : p < tracks.length := by
    have h := findIdx?_some_lt (fun t => t == parent) tracks 0 p hp
    omega
  have hstep : replayStep s widest tracks (Event.SplitTrack parent child)
      = some (splitStairs s tracks p
            ++ splitFinalRow s (tracks.insertIdx (p + 1) child) parent child,
          tracks.insertIdx (p + 1) child) := by
    simp only [replayStep, hp]
  rw [hstep, Option.map_some']
  rw [insertIdx_eq_take_cons_drop child (p + 1) tracks (by omega)]

/-- Witness for C7: parent 5 at position 0 of `[5, 7]`; splitting in child 9
gives active `[5, 9, 7]`. -/
theorem C7_split_inserts_child_after_parent_witness :
    ([5, 7] : List TrackId).findIdx? (fun t => t == 5) = some 0 ∧
    (replayStep S0 3 [5, 7] (Event.SplitTrack 5 9)).map Prod.snd = some [5, 9, 7] := by
  constructor
  · decide
  · have h := (C7_split_inserts_child_after_parent S0 3 [5, 7] 5 9 0 (by decide)).1
    rw [h]
    decide

/-- C8 counterexample: the claim quantifies over every rendering settings
value, but the builder's own render method passes no settings to the free
render function (`to_writer(writer, &state.events)`, metro.rs line 254), so
it always renders with the defaults; rendering the same snapshot through the
low-level API with `splat = 0, color = false` differs byte-wise from the
builder's render for the one-call builder state `add_station("A")`. -/
theorem C8_counterexample :
    (Events.Metro.mk (runCalls [BCall.addDetachedStation "A"]).to_events
        (RenderingSettings.mk 0 false false)).to_writer
      ≠ (runCalls [BCall.addDetachedStation "A"]).to_string := by
  decide

/-- C8 (amended): for every builder state, rendering the snapshot of the
accumulated event log through the low-level render API *with the default
settings* (the settings the builder's render uses) is byte-identical to the
builder's own render. -/
theorem C8_amended_default_roundtrip (st : MetroState) :
    (Events.Metro.mk st.to_events RenderingSettings.default).to_writer = st.to_string := rfl

/-- C9: when the monotonic counter reaches an id that is still live (e.g.
created earlier by `new_track_with_id`), the auto-id creators return an
aliasing handle to the existing track and append no event — `new_track` and
`split` both only consume the counter value. -/
theorem C9_auto_id_collision_aliases (st : MetroState) (fromId : TrackId)
    (h : st.next_id ∈ st.tracks) :
    st.new_track.1 = st.next_id ∧
    st.new_track.2.events = st.events ∧
    st.new_track.2.tracks = st.tracks ∧
    st.new_track.2.next_id = st.next_id + 1 ∧
    (st.split fromId).1 = st.next_id ∧
    (st.split fromId).2.events = st.events ∧
    (st.split fromId).2.tracks = st.tracks := by
  simp [MetroState.new_track, MetroState.split, MetroState.nextId,
    MetroState.new_track_with_id, MetroState.split_track, h]

/-- Witness for C9: after `new_track_with_id(1)` then `new_track()` (which
takes id 0), the counter is 1 and track 1 is live; the next `new_track()`
appends nothing. -/
theorem C9_auto_id_collision_aliases_witness :
    (MetroState.mk [1, 0] [Event.StartTrack 1, Event.StartTrack 0] 1).next_id
      ∈ (MetroState.mk [1, 0] [Event.StartTrack 1, Event.StartTrack 0] 1).tracks ∧
    (MetroState.mk [1, 0] [Event.StartTrack 1, Event.StartTrack 0] 1).new_track.2.events
      = [Event.StartTrack 1, Event.StartTrack 0] := by
  refine ⟨by decide, ?_⟩
  exact (C9_auto_id_collision_aliases
    (MetroState.mk [1, 0] [Event.StartTrack 1, Event.StartTrack 0] 1) 0 (by decide)).2.1

/-- C10: replaying `Station(id, "")` emits no content row at all (Rust
`str::lines` on the empty string yields no lines), just the single
all-straight spacer row, and the active list is unchanged. -/
theorem C10_empty_station_emits_spacer_only (s : RenderingSettings) (widest : Nat)
    (tracks : List TrackId) (id : TrackId) :
    replayStep s widest tracks (Event.Station id "") =
      some (String.join (tracks.map (fun t => Rail.Straight.render s t)) ++ "\n", tracks) := by
  have hl : rustLines "" = [] := rfl
  show some (stationRows s widest tracks id "", tracks) = _
  unfold stationRows
  rw [hl]
  rw [show (([] : List String).enum) = [] from rfl]
  rw [show (([] : List (Nat × String)).map (fun p =>
      String.join (tracks.map (fun t =>
        (if p.1 = 0 ∧ t = id then Rail.Station else Rail.Straight).render s t))
      ++ stationText widest tracks.length p.2 ++ "\n")) = [] from rfl]
  rw [show String.join ([] : List String) = "" from rfl]
  rw [empty_append_string]

end MetroSpec
